import Mathlib

/-!
Verification development for the Capstone ticketing/task-management
platform's analytics and scheduled-reporting engine.

The definitions below are shallow embeddings of the JavaScript source:
* `backend/src/scheduler/reportScheduler.js` (the hourly report dispatcher)
* `backend/src/services/analyticsService.js` (snapshot aggregation,
  anomaly/trend detection, forecasting, report generation helpers)

Times are modelled as minutes since the Unix epoch (`Nat`); dates carried
inside snapshots are modelled as day numbers (`Int`); JavaScript numbers
are modelled as `ℚ` (all arithmetic the embedded code performs on them is
exact in double precision for the integer-valued counters involved, and
strict-inequality thresholds such as 0.5 are reached exactly only at
binade-exact quotients, so `ℚ` and IEEE doubles agree on every branch
taken here).
-/

namespace Capstone

/-! ## Cron expressions (external `node-cron` collaborator)

The repository only ever stores 5-field cron expressions whose
day-of-month and month fields are `*` (`'0 * * * *'` for the scheduler's
own tick, `'0 8 * * 1'` in the documented schedule format), so a cron
expression is embedded as its minute, hour and day-of-week fields, each
either `*` (`none`) or a single numeric value (`some v`). -/

structure CronExpr where
  minuteField : Option Nat
  hourField : Option Nat
  dowField : Option Nat
  deriving DecidableEq, Repr

/-- A single cron field accepts a value: `*` accepts everything, a numeric
field accepts exactly its value. -/
def fieldAccepts (f : Option Nat) (v : Nat) : Bool :=
  match f with
  | none => true
  | some w => w == v

/-- `cron.validate`: the expression's numeric fields are in range
(minute < 60, hour < 24, day-of-week < 7). -/
def cronValidate (e : CronExpr) : Bool :=
  (match e.minuteField with | none => true | some v => v < 60) &&
  (match e.hourField with | none => true | some v => v < 24) &&
  (match e.dowField with | none => true | some v => v < 7)

/-- Minutes in a day. -/
def dayMinutes : Nat := 1440

/-- Minutes in a week, the period of a cron pattern whose day-of-month and
month fields are `*`. -/
def weekMinutes : Nat := 10080

/-- Cron day-of-week (0 = Sunday) of a minute-since-epoch instant; the
Unix epoch 1970-01-01 was a Thursday (= 4). -/
def dowOf (t : Nat) : Nat := (t / dayMinutes + 4) % 7

/-- The instant `t` (minutes since epoch) matches the cron expression. -/
def cronMatches (e : CronExpr) (t : Nat) : Bool :=
  fieldAccepts e.minuteField (t % 60) &&
  fieldAccepts e.hourField (t / 60 % 24) &&
  fieldAccepts e.dowField (dowOf t)

/-- Fuel-bounded linear scan for the first matching instant at or after
`t`. -/
def findFire (e : CronExpr) : Nat → Nat → Option Nat
  | _, 0 => none
  | t, fuel + 1 => if cronMatches e t then some t else findFire e (t + 1) fuel

/-- The `node-cron` library's next-run probe
(`cron.schedule(expr, …).nextDates()`): the first instant strictly after
`t` at which the expression fires.  A week of minutes always suffices as a
search window since the pattern is weekly-periodic. -/
def nextFireAfter (e : CronExpr) (t : Nat) : Option Nat :=
  findFire e (t + 1) weekMinutes

/-! ## Scheduled reports (`reportScheduler.js`) -/

/-- The persisted `schedule` JSON column:
`{"cron": …, "recipientEmail": …, "lastSent": timestamp|null}`.
(The recipient is irrelevant to dispatch decisions and omitted.) -/
structure Schedule where
  cron : Option CronExpr
  lastSent : Option Nat
  deriving DecidableEq, Repr

/-- A `CustomReport` row as the scheduler sees it. -/
structure Report where
  isActive : Bool
  schedule : Option Schedule
  deriving DecidableEq, Repr

/-- `reportScheduler.js` line 47: the per-report due check
`cron.validate(cronExpr) && cron.schedule(cronExpr, …).nextDates().toDate() <= now
&& (!lastSent || new Date(lastSent) < now)`. -/
def codeShouldSend (e : CronExpr) (lastSent : Option Nat) (now : Nat) : Bool :=
  cronValidate e &&
  (match nextFireAfter e now with
   | some u => u ≤ now
   | none => false) &&
  (match lastSent with
   | none => true
   | some ls => ls < now)

/-- The full "this report is due" condition of a tick: the `findAll`
filter (`isActive: true`, `schedule ≠ null`), the `if (!cronExpr) continue`
guard, then `codeShouldSend`. -/
def codeDue (r : Report) (now : Nat) : Bool :=
  r.isActive &&
  (match r.schedule with
   | none => false
   | some s =>
     match s.cron with
     | none => false
     | some e => codeShouldSend e s.lastSent now)

/-- Modelled from the spec (§4.5 transition rule `Idle → Due`), for
comparison with `codeDue`: the report `isActive` and has a non-null
schedule with a cron expression; the schedule's next fire instant strictly
after `lastSentAt` (or the epoch, if never sent) is ≤ `now`. -/
def specDue (r : Report) (now : Nat) : Bool :=
  r.isActive &&
  (match r.schedule with
   | none => false
   | some s =>
     match s.cron with
     | none => false
     | some e =>
       match nextFireAfter e (s.lastSent.getD 0) with
       | some u => u ≤ now
       | none => false)

/-- Outcome of an external effect (report generation, mail transport). -/
inductive Outcome
  | ok
  | err
  deriving DecidableEq, Repr

/-- `report.update({schedule: {…, lastSent: now}})`. -/
def Report.withLastSent (r : Report) (now : Nat) : Report :=
  { r with schedule := r.schedule.map fun s => { s with lastSent := some now } }

/-- The scheduler's per-report loop body (`reportScheduler.js` lines
41–74): skip when the schedule or its cron expression is missing or the
due check fails; otherwise generate (on throw: log and `continue`), then
send (on throw: log); only after a successful send set
`schedule.lastSent = now` and persist.  Returns the (possibly updated)
report and whether a successful dispatch happened. -/
def tickStep (r : Report) (now : Nat) (gen send : Outcome) : Report × Bool :=
  match r.schedule with
  | none => (r, false)
  | some s =>
    match s.cron with
    | none => (r, false)
    | some e =>
      if codeShouldSend e s.lastSent now then
        match gen with
        | .err => (r, false)
        | .ok =>
          match send with
          | .err => (r, false)
          | .ok => (r.withLastSent now, true)
      else (r, false)

/-! ### Scheduler lemmas -/

theorem findFire_ge (e : CronExpr) :
    ∀ (fuel t u : Nat), findFire e t fuel = some u → t ≤ u := by
  intro fuel
  induction fuel with
  | zero => intro t u h; simp [findFire] at h
  | succ k ih =>
    intro t u h
    rw [findFire] at h
    by_cases hm : cronMatches e t
    · simp [hm] at h; omega
    · simp [hm] at h
      have := ih (t + 1) u h
      omega

/-- The library's next-run probe is strictly in the future. -/
theorem nextFireAfter_gt (e : CronExpr) (t u : Nat)
    (h : nextFireAfter e t = some u) : t < u := by
  have := findFire_ge e weekMinutes (t + 1) u h
  omega

/-- The code's due check compares that strictly-future instant to `now`,
so it can never succeed. -/
theorem codeShouldSend_eq_false (e : CronExpr) (ls : Option Nat) (now : Nat) :
    codeShouldSend e ls now = false := by
  unfold codeShouldSend
  cases h : nextFireAfter e now with
  | none => simp
  | some u =>
    have := nextFireAfter_gt e now u h
    simp [Nat.not_le.mpr this]

/-- Scenario C's schedule: cron `0 8 * * 1` (Monday 08:00), never sent. -/
def scenarioReport : Report :=
  { isActive := true
    schedule := some { cron := some ⟨some 0, some 8, some 1⟩, lastSent := none } }

/-- Scenario C's tick instant: Monday 1970-01-05 08:05, in minutes since
the epoch. -/
def scenarioNow : Nat := 4 * 1440 + 8 * 60 + 5

/-- The scan returns the first matching instant: if `u` is a match inside
the fuel window starting at `t` and nothing below it matches, the scan
finds exactly `u`. -/
theorem findFire_eq_of_least (e : CronExpr) :
    ∀ (fuel t u : Nat), t ≤ u → u < t + fuel → cronMatches e u = true →
      (∀ v, t ≤ v → v < u → cronMatches e v = false) →
      findFire e t fuel = some u := by
  intro fuel
  induction fuel with
  | zero => intro t u h1 h2 _ _; omega
  | succ k ih =>
    intro t u h1 h2 hu hbelow
    rw [findFire]
    rcases Nat.eq_or_lt_of_le h1 with heq | hlt
    · subst heq; simp [hu]
    · have ht : cronMatches e t = false := hbelow t le_rfl hlt
      simp only [ht]
      simp only [Bool.false_eq_true, if_false]
      exact ih (t + 1) u hlt (by omega) hu fun v hv1 hv2 => hbelow v (by omega) hv2

/-- The first fire of `0 8 * * 1` strictly after the epoch is Monday
1970-01-05 08:00, minute 6240. -/
theorem nextFireAfter_scenario :
    nextFireAfter ⟨some 0, some 8, some 1⟩ 0 = some 6240 := by
  apply findFire_eq_of_least
  · omega
  · show (6240 : Nat) < 1 + weekMinutes
    unfold weekMinutes; omega
  · decide
  · intro v hv1 hv2
    simp only [cronMatches, fieldAccepts, dowOf, dayMinutes]
    rw [Bool.eq_false_iff]
    intro habs
    simp only [Bool.and_eq_true, beq_iff_eq] at habs
    omega

/-- Helper shared by the scheduler claims: since the due check is
unsatisfiable, the per-report loop body changes nothing and sends
nothing. -/
theorem tickStep_noop (r : Report) (now : Nat) (gen send : Outcome) :
    tickStep r now gen send = (r, false) := by
  obtain ⟨active, sched⟩ := r
  cases sched with
  | none => rfl
  | some s =>
    obtain ⟨c, ls⟩ := s
    cases c with
    | none => rfl
    | some e => simp [tickStep, codeShouldSend_eq_false]

/-! ## Analytics data model (`analyticsService.js`) -/

/-- `Task.status ∈ {pending, in_progress, completed, cancelled}`. -/
inductive Status
  | pending
  | in_progress
  | completed
  | cancelled
  deriving DecidableEq, Repr

/-- `Task.priority ∈ {low, medium, high, urgent}`. -/
inductive Priority
  | low
  | medium
  | high
  | urgent
  deriving DecidableEq, Repr

/-- A task record as the analytics code reads it; timestamps are day
numbers, `comments` is the list of comment creation times (first entry is
the first comment). -/
structure Task where
  status : Status
  priority : Priority
  createdAt : Int
  updatedAt : Int
  dueDate : Int
  comments : List Int
  deriving DecidableEq, Repr

/-- A `TaskMetrics` snapshot row (per-department, per-date). -/
structure TaskMetricsRow where
  date : Int
  totalTasks : ℚ
  completedTasks : ℚ
  pendingTasks : ℚ
  overdueTasks : ℚ
  averageCompletionTime : ℚ
  deriving DecidableEq, Repr, Inhabited

/-- A `UserPerformance` snapshot row (per-user, per-date). -/
structure UserPerformanceRow where
  date : Int
  tasksCompleted : ℚ
  tasksOverdue : ℚ
  averageResponseTime : ℚ
  productivityScore : ℚ
  deriving DecidableEq, Repr, Inhabited

/-- `calculateTaskMetrics(departmentId, date)`: aggregates the
department's tasks created on/before `date` (the fetched list is the
`tasks` argument; `now` is the wall-clock instant used by the overdue
filter `new Date(task.dueDate) < new Date()`). -/
def calculateTaskMetrics (tasks : List Task) (now date : Int) : TaskMetricsRow :=
  let completed := tasks.filter fun t => t.status == .completed
  { date := date
    totalTasks := tasks.length
    completedTasks := completed.length
    pendingTasks := (tasks.filter fun t => t.status == .pending).length
    overdueTasks := (tasks.filter fun t => t.status != .completed && t.dueDate < now).length
    averageCompletionTime :=
      if completed.length > 0 then
        (completed.map fun t => ((t.updatedAt - t.createdAt : Int) : ℚ)).sum / completed.length
      else 0 }

/-- The object returned by `calculateUserPerformance`. -/
structure UserPerformance where
  tasksCompleted : ℚ
  tasksOverdue : ℚ
  averageResponseTime : ℚ
  productivityScore : ℚ
  deriving DecidableEq, Repr

/-- `calculateUserPerformance(userId, date)` over the user's fetched
tasks: counts completed and overdue tasks, averages time to first
comment, and computes
`productivityScore = completionRate*100 - overdueRate*50` when the user
has tasks (the initializer 0 survives otherwise). -/
def calculateUserPerformance (tasks : List Task) (now : Int) : UserPerformance :=
  let tasksCompleted := (tasks.filter fun t => t.status == .completed).length
  let tasksOverdue := (tasks.filter fun t => t.status != .completed && t.dueDate < now).length
  let withComments := tasks.filter fun t => !t.comments.isEmpty
  { tasksCompleted := tasksCompleted
    tasksOverdue := tasksOverdue
    averageResponseTime :=
      if withComments.length > 0 then
        (withComments.map fun t => ((t.comments.headI - t.createdAt : Int) : ℚ)).sum /
          withComments.length
      else 0
    productivityScore :=
      if tasks.length > 0 then
        ((tasksCompleted : ℚ) / tasks.length) * 100 - ((tasksOverdue : ℚ) / tasks.length) * 50
      else 0 }

/-- A JavaScript numeric slot: a number, or the `NaN` produced by
incrementing a missing (`undefined`) property. -/
inductive JsVal
  | num (val : ℚ)
  | nan
  deriving DecidableEq, Repr

/-- The `++` operator on an existing numeric slot; `NaN + 1` stays
`NaN`. -/
def jsIncr : JsVal → JsVal
  | .num v => .num (v + 1)
  | .nan => .nan

/-- `trends.priorityDistribution`: the initializer creates exactly the
keys `high`, `medium`, `low`; the `urgent` key is absent (`none`) until
an increment targets it. -/
structure PriorityDistribution where
  high : JsVal
  medium : JsVal
  low : JsVal
  urgent : Option JsVal
  deriving DecidableEq, Repr

/-- `trends.priorityDistribution[task.priority]++`: incrementing the
absent `urgent` key evaluates `undefined + 1 = NaN` and stores it. -/
def PriorityDistribution.bump (d : PriorityDistribution) : Priority → PriorityDistribution
  | .high => { d with high := jsIncr d.high }
  | .medium => { d with medium := jsIncr d.medium }
  | .low => { d with low := jsIncr d.low }
  | .urgent =>
    { d with urgent := some (match d.urgent with
        | none => JsVal.nan
        | some v => jsIncr v) }

/-- `trends.statusDistribution`: the initializer creates all four status
keys. -/
structure StatusDistribution where
  pending : JsVal
  in_progress : JsVal
  completed : JsVal
  cancelled : JsVal
  deriving DecidableEq, Repr

/-- `trends.statusDistribution[task.status]++`. -/
def StatusDistribution.bump (d : StatusDistribution) : Status → StatusDistribution
  | .pending => { d with pending := jsIncr d.pending }
  | .in_progress => { d with in_progress := jsIncr d.in_progress }
  | .completed => { d with completed := jsIncr d.completed }
  | .cancelled => { d with cancelled := jsIncr d.cancelled }

/-- The object returned by `calculateTaskTrends`. -/
structure TaskTrends where
  completionRate : ℚ
  averageResolutionTime : ℚ
  priorityDistribution : PriorityDistribution
  statusDistribution : StatusDistribution
  deriving DecidableEq, Repr

/-- `calculateTaskTrends(departmentId, period, startDate, endDate)` over
the fetched task list. -/
def calculateTaskTrends (tasks : List Task) : TaskTrends :=
  let completed := tasks.filter fun t => t.status == .completed
  { completionRate :=
      if tasks.length > 0 then ((completed.length : ℚ) / tasks.length) * 100 else 0
    averageResolutionTime :=
      if completed.length > 0 then
        (completed.map fun t => ((t.updatedAt - t.createdAt : Int) : ℚ)).sum / completed.length
      else 0
    priorityDistribution :=
      tasks.foldl (fun d t => d.bump t.priority) ⟨.num 0, .num 0, .num 0, none⟩
    statusDistribution :=
      tasks.foldl (fun d t => d.bump t.status) ⟨.num 0, .num 0, .num 0, .num 0⟩ }

/-- One element of the list returned by `getPerformanceTrends`; the
`formatDate` rendering of the date label is kept as the day number. -/
structure PerformanceTrendEntry where
  date : Int
  completionRate : ℚ
  averageResolutionTime : ℚ
  productivityScore : ℚ
  deriving DecidableEq, Repr

/-- The per-row map body of `getPerformanceTrends`:
`completionRate = totalTasks > 0 ? completedTasks/totalTasks*100 : 0`;
`averageResolutionTime = metric.averageCompletionTime || 0` (identity on
a numeric column); `TaskMetrics` rows have no `productivityScore`
attribute, so `metric.productivityScore || 0` is 0. -/
def perfTrendEntry (m : TaskMetricsRow) : PerformanceTrendEntry :=
  { date := m.date
    completionRate := if m.totalTasks > 0 then m.completedTasks / m.totalTasks * 100 else 0
    averageResolutionTime := m.averageCompletionTime
    productivityScore := 0 }

/-- `getPerformanceTrends(departmentId, startDate, endDate, period)` over
the fetched, date-ordered snapshot rows. -/
def getPerformanceTrends (metrics : List TaskMetricsRow) : List PerformanceTrendEntry :=
  metrics.map perfTrendEntry

/-! ## Anomaly and trend detection, forecasting -/

/-- The metric a detector record names. -/
inductive MetricName
  | completedTasks
  | overdueTasks
  | tasksCompleted
  | tasksOverdue
  deriving DecidableEq, Repr

/-- An anomaly record `{date, type, message}`; the message string renders
exactly the previous and current metric values
(`"… ${prev} → ${curr}"`), kept here as the two numbers. -/
structure Anomaly where
  date : Int
  type : MetricName
  prevVal : ℚ
  currVal : ℚ
  deriving DecidableEq, Repr

/-- The adjacent pairs `(series[i-1], series[i])` visited by the
detectors' `for (let i = 1; i < n; i++)` loops, in loop order. -/
def adjacentPairs (l : List α) : List (α × α) := l.zip l.tail

/-- The records the department detector's loop body pushes for one
adjacent pair: one per metric in {completedTasks, overdueTasks} whose
relative change exceeds 0.5 with a positive previous value. -/
def deptPairAnomalies (prev curr : TaskMetricsRow) : List Anomaly :=
  (if prev.completedTasks > 0 ∧
      |curr.completedTasks - prev.completedTasks| / prev.completedTasks > 0.5 then
    [⟨curr.date, .completedTasks, prev.completedTasks, curr.completedTasks⟩]
  else []) ++
  (if prev.overdueTasks > 0 ∧
      |curr.overdueTasks - prev.overdueTasks| / prev.overdueTasks > 0.5 then
    [⟨curr.date, .overdueTasks, prev.overdueTasks, curr.overdueTasks⟩]
  else [])

/-- `detectTaskAnomalies(departmentId, startDate, endDate)`; the argument
is the fetched series (`none` models a null/absent fetch result, guarded
by `!metrics`). -/
def detectTaskAnomalies (metrics : Option (List TaskMetricsRow)) : List Anomaly :=
  match metrics with
  | none => []
  | some ms =>
    if ms.length < 2 then []
    else (adjacentPairs ms).flatMap fun pc => deptPairAnomalies pc.1 pc.2

/-- The records the user detector's loop body pushes for one adjacent
pair (metrics tasksCompleted, tasksOverdue). -/
def userPairAnomalies (prev curr : UserPerformanceRow) : List Anomaly :=
  (if prev.tasksCompleted > 0 ∧
      |curr.tasksCompleted - prev.tasksCompleted| / prev.tasksCompleted > 0.5 then
    [⟨curr.date, .tasksCompleted, prev.tasksCompleted, curr.tasksCompleted⟩]
  else []) ++
  (if prev.tasksOverdue > 0 ∧
      |curr.tasksOverdue - prev.tasksOverdue| / prev.tasksOverdue > 0.5 then
    [⟨curr.date, .tasksOverdue, prev.tasksOverdue, curr.tasksOverdue⟩]
  else [])

/-- `detectUserActivityAnomalies(userId, startDate, endDate)`. -/
def detectUserActivityAnomalies (performance : Option (List UserPerformanceRow)) :
    List Anomaly :=
  match performance with
  | none => []
  | some ps =>
    if ps.length < 2 then []
    else (adjacentPairs ps).flatMap fun pc => userPairAnomalies pc.1 pc.2

/-- Trend direction reported by `detectDepartmentTrends`. -/
inductive TrendDirection
  | increasing
  | decreasing
  | stable
  deriving DecidableEq, Repr

/-- The single record `detectDepartmentTrends` returns; `fromVal`/`toVal`
embed the JS record's `from`/`to` fields (`from` is a Lean keyword). -/
structure TrendRecord where
  metric : MetricName
  trend : TrendDirection
  fromVal : ℚ
  toVal : ℚ
  deriving DecidableEq, Repr

/-- `detectDepartmentTrends(departmentId, startDate, endDate)`: compares
the first and last snapshot's `completedTasks`. -/
def detectDepartmentTrends (metrics : Option (List TaskMetricsRow)) : List TrendRecord :=
  match metrics with
  | none => []
  | some ms =>
    if ms.length < 2 then []
    else
      let first := ms.headI
      let lastM := ms.getLastI
      let trend := lastM.completedTasks - first.completedTasks
      let trendType :=
        if trend > 0 then TrendDirection.increasing
        else if trend < 0 then TrendDirection.decreasing
        else TrendDirection.stable
      [⟨.completedTasks, trendType, first.completedTasks, lastM.completedTasks⟩]

/-- One forecast point `{date, predicted…}`. -/
structure ForecastPoint where
  date : Int
  predicted : Int
  deriving DecidableEq, Repr

/-- JavaScript `Math.round`: round half toward positive infinity. -/
def jsRound (q : ℚ) : Int := ⌊q + 1 / 2⌋

/-- The forecast loop `for (let i = 1; i <= 7; i++)`: point `i` is dated
`i` days after the last historical date and predicts
`Math.round(lastValue + avgChange * i)`. -/
def projectPoints (lastDate : Int) (lastVal avgChange : ℚ) : List ForecastPoint :=
  (List.range' 1 7).map fun i => ⟨lastDate + i, jsRound (lastVal + avgChange * i)⟩

/-- `forecastTaskCompletion(departmentId, startDate, endDate)`: linear
projection of `completedTasks`. -/
def forecastTaskCompletion (metrics : Option (List TaskMetricsRow)) : List ForecastPoint :=
  match metrics with
  | none => []
  | some ms =>
    if ms.length < 2 then []
    else
      let lastM := ms.getLastI
      let avgChange :=
        (lastM.completedTasks - ms.headI.completedTasks) / ((ms.length : ℚ) - 1)
      projectPoints lastM.date lastM.completedTasks avgChange

/-- `forecastUserProductivity(userId, startDate, endDate)`: linear
projection of `productivityScore`. -/
def forecastUserProductivity (performance : Option (List UserPerformanceRow)) :
    List ForecastPoint :=
  match performance with
  | none => []
  | some ps =>
    if ps.length < 2 then []
    else
      let lastP := ps.getLastI
      let avgChange :=
        (lastP.productivityScore - ps.headI.productivityScore) / ((ps.length : ℚ) - 1)
      projectPoints lastP.date lastP.productivityScore avgChange

/-- `forecastDepartmentWorkload(departmentId, startDate, endDate)`:
linear projection of `totalTasks`. -/
def forecastDepartmentWorkload (metrics : Option (List TaskMetricsRow)) : List ForecastPoint :=
  match metrics with
  | none => []
  | some ms =>
    if ms.length < 2 then []
    else
      let lastM := ms.getLastI
      let avgChange :=
        (lastM.totalTasks - ms.headI.totalTasks) / ((ms.length : ℚ) - 1)
      projectPoints lastM.date lastM.totalTasks avgChange

/-! ## Sample inputs used by witnesses -/

/-- A one-element department series for witnesses. -/
def sampleMetricsRow : TaskMetricsRow :=
  { date := 0, totalTasks := 3, completedTasks := 1, pendingTasks := 1,
    overdueTasks := 1, averageCompletionTime := 0 }

/-- A one-element user series for witnesses. -/
def samplePerfRow : UserPerformanceRow :=
  { date := 0, tasksCompleted := 1, tasksOverdue := 0,
    averageResponseTime := 0, productivityScore := 50 }

/-- A pending task whose due date has passed. -/
def overdueTask : Task :=
  { status := .pending, priority := .low, createdAt := 0, updatedAt := 0,
    dueDate := -1, comments := [] }

/-- C1: the spec's `Idle → Due` transition rule says a report is due iff
it is active, has a schedule with a cron expression, and the next fire
instant strictly after `lastSentAt` (or the epoch) is ≤ now; the code's
due check instead probes the cron library's next fire date — which is
strictly after `now` — and compares it to `now`, so it never fires.  At
Scenario C's input (cron `0 8 * * 1`, `lastSent` null, a Monday 08:05
tick) the spec rule says due while the code says not due. -/
theorem scheduler_due_check_contradicts_spec :
    (∀ (e : CronExpr) (ls : Option Nat) (now : Nat), codeShouldSend e ls now = false) ∧
    specDue scenarioReport scenarioNow = true ∧
    codeDue scenarioReport scenarioNow = false := by
  refine ⟨codeShouldSend_eq_false, ?_, ?_⟩
  · simp [specDue, scenarioReport, scenarioNow, nextFireAfter_scenario]
  · simp [codeDue, scenarioReport, codeShouldSend_eq_false]

/-- C2: the claimed at-most-once-per-fire-instant delivery is vacuous in
the code: the per-report loop body never performs any successful dispatch
and never changes the stored report, for every report, tick time and
outcome of the generation and mail collaborators. -/
theorem scheduler_tick_never_dispatches
    (r : Report) (now : Nat) (gen send : Outcome) :
    tickStep r now gen send = (r, false) :=
  tickStep_noop r now gen send

/-- C3: failure atomicity of a scheduled dispatch: if report generation
throws or the mail send fails, the loop body leaves the report (including
`schedule.lastSent`) unchanged and reports no dispatch, so the report is
re-evaluated on the next tick; moreover for every outcome the body either
leaves the report unchanged or — only when both generation and send
succeeded — sets `lastSent` to the evaluating tick's `now`. -/
theorem scheduler_failure_leaves_schedule_unchanged
    (r : Report) (now : Nat) (gen send : Outcome)
    (h : gen = .err ∨ send = .err) :
    tickStep r now gen send = (r, false) ∧
    ∀ g2 s2 : Outcome, (tickStep r now g2 s2).1 = r ∨
      ((tickStep r now g2 s2).1 = r.withLastSent now ∧ g2 = .ok ∧ s2 = .ok) := by
  exact ⟨tickStep_noop r now gen send,
    fun g2 s2 => Or.inl (by rw [tickStep_noop])⟩

/-- Witness for C3 at a concrete input: Scenario C's report, tick minute
5, generation failing. -/
theorem scheduler_failure_leaves_schedule_unchanged_witness :
    (Outcome.err = Outcome.err ∨ Outcome.ok = Outcome.err) ∧
    (tickStep scenarioReport 5 .err .ok = (scenarioReport, false) ∧
      ∀ g2 s2 : Outcome, (tickStep scenarioReport 5 g2 s2).1 = scenarioReport ∨
        ((tickStep scenarioReport 5 g2 s2).1 = scenarioReport.withLastSent 5 ∧
          g2 = .ok ∧ s2 = .ok)) :=
  ⟨Or.inl rfl,
    scheduler_failure_leaves_schedule_unchanged scenarioReport 5 .err .ok (Or.inl rfl)⟩

/-- C4: every detector and forecaster returns the empty list — not an
error — on a null/absent series and on a series of length 0 or 1. -/
theorem short_series_returns_empty
    (dms : List TaskMetricsRow) (ums : List UserPerformanceRow)
    (hd : dms.length ≤ 1) (hu : ums.length ≤ 1) :
    detectTaskAnomalies none = [] ∧ detectTaskAnomalies (some dms) = [] ∧
    detectUserActivityAnomalies none = [] ∧ detectUserActivityAnomalies (some ums) = [] ∧
    detectDepartmentTrends none = [] ∧ detectDepartmentTrends (some dms) = [] ∧
    forecastTaskCompletion none = [] ∧ forecastTaskCompletion (some dms) = [] ∧
    forecastUserProductivity none = [] ∧ forecastUserProductivity (some ums) = [] ∧
    forecastDepartmentWorkload none = [] ∧ forecastDepartmentWorkload (some dms) = [] := by
  have hd2 : dms.length < 2 := by omega
  have hu2 : ums.length < 2 := by omega
  simp [detectTaskAnomalies, detectUserActivityAnomalies, detectDepartmentTrends,
    forecastTaskCompletion, forecastUserProductivity, forecastDepartmentWorkload, hd2, hu2]

/-- Witness for C4 at one-element series (Scenario B's shape). -/
theorem short_series_returns_empty_witness :
    ([sampleMetricsRow].length ≤ 1 ∧ [samplePerfRow].length ≤ 1) ∧
    (detectTaskAnomalies none = [] ∧ detectTaskAnomalies (some [sampleMetricsRow]) = [] ∧
      detectUserActivityAnomalies none = [] ∧
      detectUserActivityAnomalies (some [samplePerfRow]) = [] ∧
      detectDepartmentTrends none = [] ∧ detectDepartmentTrends (some [sampleMetricsRow]) = [] ∧
      forecastTaskCompletion none = [] ∧ forecastTaskCompletion (some [sampleMetricsRow]) = [] ∧
      forecastUserProductivity none = [] ∧
      forecastUserProductivity (some [samplePerfRow]) = [] ∧
      forecastDepartmentWorkload none = [] ∧
      forecastDepartmentWorkload (some [sampleMetricsRow]) = []) :=
  ⟨⟨by decide, by decide⟩,
    short_series_returns_empty [sampleMetricsRow] [samplePerfRow] (by decide) (by decide)⟩

/-- The last element of `a :: l ++ [b]` is `b`. -/
theorem getLastI_cons_append {α : Type _} [Inhabited α] (a b : α) (l : List α) :
    (a :: (l ++ [b])).getLastI = b := by
  rw [List.getLastI_eq_getLast?]
  rw [show a :: (l ++ [b]) = (a :: l) ++ [b] from rfl]
  rw [List.getLast?_concat]

/-- C7: `detectDepartmentTrends` reports on `completedTasks` comparing
only the first and last snapshot: direction is increasing / decreasing /
stable according to the sign of `last − first`, and replacing the
intermediate snapshots changes nothing. -/
theorem trend_uses_only_endpoints
    (ms mid mid2 : List TaskMetricsRow) (a b : TaskMetricsRow)
    (h2 : 2 ≤ ms.length) (ha : ms.headI = a) (hb : ms.getLastI = b) :
    (a.completedTasks < b.completedTasks →
      detectDepartmentTrends (some ms) =
        [⟨.completedTasks, .increasing, a.completedTasks, b.completedTasks⟩]) ∧
    (b.completedTasks < a.completedTasks →
      detectDepartmentTrends (some ms) =
        [⟨.completedTasks, .decreasing, a.completedTasks, b.completedTasks⟩]) ∧
    (a.completedTasks = b.completedTasks →
      detectDepartmentTrends (some ms) =
        [⟨.completedTasks, .stable, a.completedTasks, b.completedTasks⟩]) ∧
    detectDepartmentTrends (some (a :: (mid ++ [b]))) =
      detectDepartmentTrends (some (a :: (mid2 ++ [b]))) := by
  have hlen : ¬ ms.length < 2 := by omega
  refine ⟨?_, ?_, ?_, ?_⟩
  · intro h
    simp only [detectDepartmentTrends, if_neg hlen, ha, hb]
    rw [if_pos (by linarith)]
  · intro h
    simp only [detectDepartmentTrends, if_neg hlen, ha, hb]
    rw [if_neg (by linarith), if_pos (by linarith)]
  · intro h
    simp only [detectDepartmentTrends, if_neg hlen, ha, hb, h]
    rw [if_neg (by linarith), if_neg (by linarith)]
  · have l1 : ¬ (a :: (mid ++ [b])).length < 2 := by simp
    have l2 : ¬ (a :: (mid2 ++ [b])).length < 2 := by simp
    simp only [detectDepartmentTrends, if_neg l1, if_neg l2, List.headI_cons,
      getLastI_cons_append]

/-- Witness for C7 on the two-point series `[sampleMetricsRow, rowTo]`
with `completedTasks` going 1 → 2. -/
theorem trend_uses_only_endpoints_witness :
    (2 ≤ [sampleMetricsRow, { sampleMetricsRow with completedTasks := 2 }].length ∧
      [sampleMetricsRow, { sampleMetricsRow with completedTasks := 2 }].headI =
        sampleMetricsRow ∧
      [sampleMetricsRow, { sampleMetricsRow with completedTasks := 2 }].getLastI =
        { sampleMetricsRow with completedTasks := 2 }) ∧
    ((sampleMetricsRow.completedTasks <
        ({ sampleMetricsRow with completedTasks := 2 } : TaskMetricsRow).completedTasks →
      detectDepartmentTrends
          (some [sampleMetricsRow, { sampleMetricsRow with completedTasks := 2 }]) =
        [⟨.completedTasks, .increasing, sampleMetricsRow.completedTasks,
          ({ sampleMetricsRow with completedTasks := 2 } : TaskMetricsRow).completedTasks⟩]) ∧
     (({ sampleMetricsRow with completedTasks := 2 } : TaskMetricsRow).completedTasks <
        sampleMetricsRow.completedTasks →
      detectDepartmentTrends
          (some [sampleMetricsRow, { sampleMetricsRow with completedTasks := 2 }]) =
        [⟨.completedTasks, .decreasing, sampleMetricsRow.completedTasks,
          ({ sampleMetricsRow with completedTasks := 2 } : TaskMetricsRow).completedTasks⟩]) ∧
     (sampleMetricsRow.completedTasks =
        ({ sampleMetricsRow with completedTasks := 2 } : TaskMetricsRow).completedTasks →
      detectDepartmentTrends
          (some [sampleMetricsRow, { sampleMetricsRow with completedTasks := 2 }]) =
        [⟨.completedTasks, .stable, sampleMetricsRow.completedTasks,
          ({ sampleMetricsRow with completedTasks := 2 } : TaskMetricsRow).completedTasks⟩]) ∧
     detectDepartmentTrends
         (some (sampleMetricsRow :: ([] ++ [{ sampleMetricsRow with completedTasks := 2 }]))) =
       detectDepartmentTrends
         (some (sampleMetricsRow ::
           ([sampleMetricsRow] ++ [{ sampleMetricsRow with completedTasks := 2 }])))) :=
  ⟨⟨by decide, by rfl, by rfl⟩,
    trend_uses_only_endpoints
      [sampleMetricsRow, { sampleMetricsRow with completedTasks := 2 }]
      [] [sampleMetricsRow] sampleMetricsRow
      { sampleMetricsRow with completedTasks := 2 } (by decide) (by rfl) (by rfl)⟩

/-- C9: for a user with at least one assigned task,
`productivityScore = tasksCompleted/totalTasks*100 − tasksOverdue/totalTasks*50`;
with no tasks it is 0; the formula is not clamped and goes negative when
the overdue fraction is high (a single overdue, uncompleted task scores
−50). -/
theorem productivityScore_formula_unclamped
    (tasks : List Task) (now : Int) (h : tasks ≠ []) :
    (calculateUserPerformance tasks now).productivityScore =
      (((tasks.filter fun t => t.status == .completed).length : ℚ) / tasks.length) * 100 -
      (((tasks.filter fun t => t.status != .completed && t.dueDate < now).length : ℚ) /
        tasks.length) * 50 ∧
    (calculateUserPerformance [] now).productivityScore = 0 ∧
    (calculateUserPerformance [overdueTask] 0).productivityScore < 0 := by
  have hl : tasks.length > 0 := List.length_pos.mpr h
  refine ⟨?_, by simp [calculateUserPerformance],
    by norm_num [calculateUserPerformance, overdueTask, List.filter_cons,
      (show Status.pending ≠ Status.completed by decide)]⟩
  simp only [calculateUserPerformance, if_pos hl]

/-- Unfolding the adjacent-pair scan one step. -/
theorem adjacentPairs_cons₂ (x y : α) (l : List α) :
    adjacentPairs (x :: y :: l) = (x, y) :: adjacentPairs (y :: l) := rfl

/-- Membership in a scan over adjacent pairs, characterised by index. -/
theorem mem_flatMap_adjacentPairs {α β : Type _} (f : α × α → List β) :
    ∀ (l : List α) (b : β),
      (b ∈ (adjacentPairs l).flatMap f ↔
        ∃ i p c, l[i]? = some p ∧ l[i + 1]? = some c ∧ b ∈ f (p, c)) := by
  intro l
  induction l with
  | nil =>
    intro b
    constructor
    · intro hmem; simp [adjacentPairs] at hmem
    · rintro ⟨i, p, c, hp, _, _⟩
      simp at hp
  | cons x xs ih =>
    intro b
    cases xs with
    | nil =>
      constructor
      · intro hmem; simp [adjacentPairs] at hmem
      · rintro ⟨i, p, c, hp, hc, _⟩
        rw [List.getElem?_cons_succ] at hc
        simp at hc
    | cons y ys =>
      rw [adjacentPairs_cons₂, List.flatMap_cons]
      constructor
      · intro hmem
        rcases List.mem_append.mp hmem with hl | hr
        · refine ⟨0, x, y, rfl, ?_, hl⟩
          rw [List.getElem?_cons_succ, List.getElem?_cons_zero]
        · obtain ⟨i, p, c, hp, hc, hb⟩ := (ih b).mp hr
          refine ⟨i + 1, p, c, ?_, ?_, hb⟩
          · rw [List.getElem?_cons_succ]; exact hp
          · rw [List.getElem?_cons_succ]; exact hc
      · rintro ⟨i, p, c, hp, hc, hb⟩
        cases i with
        | zero =>
          rw [List.getElem?_cons_zero] at hp
          rw [List.getElem?_cons_succ, List.getElem?_cons_zero] at hc
          obtain rfl : x = p := by injection hp
          obtain rfl : y = c := by injection hc
          exact List.mem_append.mpr (Or.inl hb)
        | succ j =>
          rw [List.getElem?_cons_succ] at hp hc
          exact List.mem_append.mpr (Or.inr ((ih b).mpr ⟨j, p, c, hp, hc, hb⟩))

/-- A series shorter than two points has no adjacent pairs. -/
theorem adjacentPairs_eq_nil_of_short (l : List α) (h : l.length < 2) :
    adjacentPairs l = [] := by
  cases l with
  | nil => rfl
  | cons x xs =>
    cases xs with
    | nil => rfl
    | cons y ys => simp at h; omega

/-- The `< 2` guard is redundant with the empty pair scan, so the
department detector is the pair scan outright. -/
theorem detectTaskAnomalies_eq_scan (ms : List TaskMetricsRow) :
    detectTaskAnomalies (some ms) =
      (adjacentPairs ms).flatMap fun pc => deptPairAnomalies pc.1 pc.2 := by
  simp only [detectTaskAnomalies]
  split_ifs with h
  · rw [adjacentPairs_eq_nil_of_short ms h]; rfl
  · rfl

/-- Same for the user detector. -/
theorem detectUserActivityAnomalies_eq_scan (ps : List UserPerformanceRow) :
    detectUserActivityAnomalies (some ps) =
      (adjacentPairs ps).flatMap fun pc => userPairAnomalies pc.1 pc.2 := by
  simp only [detectUserActivityAnomalies]
  split_ifs with h
  · rw [adjacentPairs_eq_nil_of_short ps h]; rfl
  · rfl

/-- What one loop iteration of the department detector emits. -/
theorem mem_deptPairAnomalies (p c : TaskMetricsRow) (a : Anomaly) :
    a ∈ deptPairAnomalies p c ↔
      (p.completedTasks > 0 ∧
        |c.completedTasks - p.completedTasks| / p.completedTasks > 0.5 ∧
        a = ⟨c.date, .completedTasks, p.completedTasks, c.completedTasks⟩) ∨
      (p.overdueTasks > 0 ∧
        |c.overdueTasks - p.overdueTasks| / p.overdueTasks > 0.5 ∧
        a = ⟨c.date, .overdueTasks, p.overdueTasks, c.overdueTasks⟩) := by
  unfold deptPairAnomalies
  split_ifs <;> simp_all

/-- What one loop iteration of the user detector emits. -/
theorem mem_userPairAnomalies (p c : UserPerformanceRow) (a : Anomaly) :
    a ∈ userPairAnomalies p c ↔
      (p.tasksCompleted > 0 ∧
        |c.tasksCompleted - p.tasksCompleted| / p.tasksCompleted > 0.5 ∧
        a = ⟨c.date, .tasksCompleted, p.tasksCompleted, c.tasksCompleted⟩) ∨
      (p.tasksOverdue > 0 ∧
        |c.tasksOverdue - p.tasksOverdue| / p.tasksOverdue > 0.5 ∧
        a = ⟨c.date, .tasksOverdue, p.tasksOverdue, c.tasksOverdue⟩) := by
  unfold userPairAnomalies
  split_ifs <;> simp_all

/-- C5: anomaly emission is exact.  A record is in the department
detector's output iff some adjacent pair `(prev, curr)` of the series
has, for the named metric (`completedTasks` or `overdueTasks`), a
positive previous value and a relative change strictly above 0.5, and
the record carries the current date and both values; likewise for the
user detector over `tasksCompleted`/`tasksOverdue`.  In particular a
relative change of exactly 0.5, or a zero previous value, emits
nothing. -/
theorem anomaly_emission_exact
    (ms : List TaskMetricsRow) (us : List UserPerformanceRow) (a : Anomaly) :
    (a ∈ detectTaskAnomalies (some ms) ↔
      ∃ i p c, ms[i]? = some p ∧ ms[i + 1]? = some c ∧
        ((p.completedTasks > 0 ∧
          |c.completedTasks - p.completedTasks| / p.completedTasks > (0.5 : ℚ) ∧
          a = ⟨c.date, .completedTasks, p.completedTasks, c.completedTasks⟩) ∨
         (p.overdueTasks > 0 ∧
          |c.overdueTasks - p.overdueTasks| / p.overdueTasks > (0.5 : ℚ) ∧
          a = ⟨c.date, .overdueTasks, p.overdueTasks, c.overdueTasks⟩))) ∧
    (a ∈ detectUserActivityAnomalies (some us) ↔
      ∃ i p c, us[i]? = some p ∧ us[i + 1]? = some c ∧
        ((p.tasksCompleted > 0 ∧
          |c.tasksCompleted - p.tasksCompleted| / p.tasksCompleted > (0.5 : ℚ) ∧
          a = ⟨c.date, .tasksCompleted, p.tasksCompleted, c.tasksCompleted⟩) ∨
         (p.tasksOverdue > 0 ∧
          |c.tasksOverdue - p.tasksOverdue| / p.tasksOverdue > (0.5 : ℚ) ∧
          a = ⟨c.date, .tasksOverdue, p.tasksOverdue, c.tasksOverdue⟩))) := by
  constructor
  · rw [detectTaskAnomalies_eq_scan, mem_flatMap_adjacentPairs]
    simp only [mem_deptPairAnomalies]
  · rw [detectUserActivityAnomalies_eq_scan, mem_flatMap_adjacentPairs]
    simp only [mem_userPairAnomalies]

/-- A two-point department series whose `completedTasks` falls 10 → 0,
driving the linear forecast negative. -/
def negRowA : TaskMetricsRow :=
  { date := 0, totalTasks := 0, completedTasks := 10, pendingTasks := 0,
    overdueTasks := 0, averageCompletionTime := 0 }

/-- Second point of the falling series. -/
def negRowB : TaskMetricsRow :=
  { negRowA with date := 1, completedTasks := 0 }

/-- A second user snapshot for the forecast witness. -/
def samplePerfRow2 : UserPerformanceRow :=
  { samplePerfRow with date := 1, productivityScore := 60 }

/-- The forecast loop emits exactly 7 points. -/
theorem projectPoints_length (d : Int) (v a : ℚ) :
    (projectPoints d v a).length = 7 := rfl

/-- The `i`-th (0-based) emitted point is dated `i + 1` days after the
last historical date and predicts `round(lastVal + avgChange * (i + 1))`. -/
theorem projectPoints_getElem (d : Int) (v a : ℚ) (i : Nat) (hi : i < 7) :
    (projectPoints d v a)[i]? =
      some ⟨d + ((i + 1 : ℕ) : ℤ), jsRound (v + a * ((i + 1 : ℕ) : ℚ))⟩ := by
  have h7 : List.range' 1 7 = [1, 2, 3, 4, 5, 6, 7] := rfl
  unfold projectPoints
  rw [h7]
  interval_cases i <;> simp

/-- For a series of ≥ 2 points the department-completion forecaster is
the loop over slope `(last − first) / (n − 1)`. -/
theorem forecastTaskCompletion_eq (ms : List TaskMetricsRow) (h : 2 ≤ ms.length) :
    forecastTaskCompletion (some ms) =
      projectPoints ms.getLastI.date ms.getLastI.completedTasks
        ((ms.getLastI.completedTasks - ms.headI.completedTasks) / ((ms.length : ℚ) - 1)) := by
  simp only [forecastTaskCompletion]
  rw [if_neg (by omega)]

/-- Same for the user-productivity forecaster. -/
theorem forecastUserProductivity_eq (ps : List UserPerformanceRow) (h : 2 ≤ ps.length) :
    forecastUserProductivity (some ps) =
      projectPoints ps.getLastI.date ps.getLastI.productivityScore
        ((ps.getLastI.productivityScore - ps.headI.productivityScore) /
          ((ps.length : ℚ) - 1)) := by
  simp only [forecastUserProductivity]
  rw [if_neg (by omega)]

/-- Same for the department-workload forecaster. -/
theorem forecastDepartmentWorkload_eq (ms : List TaskMetricsRow) (h : 2 ≤ ms.length) :
    forecastDepartmentWorkload (some ms) =
      projectPoints ms.getLastI.date ms.getLastI.totalTasks
        ((ms.getLastI.totalTasks - ms.headI.totalTasks) / ((ms.length : ℚ) - 1)) := by
  simp only [forecastDepartmentWorkload]
  rw [if_neg (by omega)]

/-- C6: each forecaster returns exactly 7 points; point `i` (0-based) is
dated `i + 1` days after the last historical date — so dates strictly
increase by one day starting the day after the last snapshot — and
predicts `round(last + avgStep * (i + 1))` with
`avgStep = (last − first) / (n − 1)` over the respective field; nothing
clamps the prediction, which goes negative on a falling series. -/
theorem forecast_shape_and_values
    (ms ms2 : List TaskMetricsRow) (us : List UserPerformanceRow)
    (hm : 2 ≤ ms.length) (hu : 2 ≤ us.length) (hm2 : 2 ≤ ms2.length) :
    ((forecastTaskCompletion (some ms)).length = 7 ∧
      ∀ i : Nat, i < 7 → (forecastTaskCompletion (some ms))[i]? =
        some ⟨ms.getLastI.date + ((i + 1 : ℕ) : ℤ),
          jsRound (ms.getLastI.completedTasks +
            (ms.getLastI.completedTasks - ms.headI.completedTasks) /
              ((ms.length : ℚ) - 1) * ((i + 1 : ℕ) : ℚ))⟩) ∧
    ((forecastUserProductivity (some us)).length = 7 ∧
      ∀ i : Nat, i < 7 → (forecastUserProductivity (some us))[i]? =
        some ⟨us.getLastI.date + ((i + 1 : ℕ) : ℤ),
          jsRound (us.getLastI.productivityScore +
            (us.getLastI.productivityScore - us.headI.productivityScore) /
              ((us.length : ℚ) - 1) * ((i + 1 : ℕ) : ℚ))⟩) ∧
    ((forecastDepartmentWorkload (some ms2)).length = 7 ∧
      ∀ i : Nat, i < 7 → (forecastDepartmentWorkload (some ms2))[i]? =
        some ⟨ms2.getLastI.date + ((i + 1 : ℕ) : ℤ),
          jsRound (ms2.getLastI.totalTasks +
            (ms2.getLastI.totalTasks - ms2.headI.totalTasks) /
              ((ms2.length : ℚ) - 1) * ((i + 1 : ℕ) : ℚ))⟩) ∧
    (∃ p ∈ forecastTaskCompletion (some [negRowA, negRowB]), p.predicted < 0) := by
  refine ⟨⟨?_, ?_⟩, ⟨?_, ?_⟩, ⟨?_, ?_⟩, ?_⟩
  · rw [forecastTaskCompletion_eq ms hm]; exact projectPoints_length _ _ _
  · intro i hi; rw [forecastTaskCompletion_eq ms hm, projectPoints_getElem _ _ _ i hi]
  · rw [forecastUserProductivity_eq us hu]; exact projectPoints_length _ _ _
  · intro i hi; rw [forecastUserProductivity_eq us hu, projectPoints_getElem _ _ _ i hi]
  · rw [forecastDepartmentWorkload_eq ms2 hm2]; exact projectPoints_length _ _ _
  · intro i hi; rw [forecastDepartmentWorkload_eq ms2 hm2, projectPoints_getElem _ _ _ i hi]
  · have hlast : [negRowA, negRowB].getLastI = negRowB := rfl
    have hhead : [negRowA, negRowB].headI = negRowA := rfl
    have hneg : forecastTaskCompletion (some [negRowA, negRowB]) =
        projectPoints 1 0 (-10) := by
      rw [forecastTaskCompletion_eq _ (by decide), hlast, hhead]
      norm_num [negRowA, negRowB]
    rw [hneg]
    refine ⟨⟨1 + ((1 : ℕ) : ℤ), jsRound (0 + (-10) * ((1 : ℕ) : ℚ))⟩, ?_, ?_⟩
    · exact List.mem_map_of_mem _ (by decide)
    · show jsRound (0 + (-10) * ((1 : ℕ) : ℚ)) < 0
      unfold jsRound
      apply Int.floor_lt.mpr
      push_cast
      norm_num

/-- Witness for C6 on the falling department series and a rising user
series. -/
theorem forecast_shape_and_values_witness :
    (2 ≤ [negRowA, negRowB].length ∧ 2 ≤ [samplePerfRow, samplePerfRow2].length ∧
      2 ≤ [negRowA, negRowB].length) ∧
    (((forecastTaskCompletion (some [negRowA, negRowB])).length = 7 ∧
      ∀ i : Nat, i < 7 → (forecastTaskCompletion (some [negRowA, negRowB]))[i]? =
        some ⟨[negRowA, negRowB].getLastI.date + ((i + 1 : ℕ) : ℤ),
          jsRound ([negRowA, negRowB].getLastI.completedTasks +
            ([negRowA, negRowB].getLastI.completedTasks -
              [negRowA, negRowB].headI.completedTasks) /
              (([negRowA, negRowB].length : ℚ) - 1) * ((i + 1 : ℕ) : ℚ))⟩) ∧
    ((forecastUserProductivity (some [samplePerfRow, samplePerfRow2])).length = 7 ∧
      ∀ i : Nat, i < 7 →
        (forecastUserProductivity (some [samplePerfRow, samplePerfRow2]))[i]? =
        some ⟨[samplePerfRow, samplePerfRow2].getLastI.date + ((i + 1 : ℕ) : ℤ),
          jsRound ([samplePerfRow, samplePerfRow2].getLastI.productivityScore +
            ([samplePerfRow, samplePerfRow2].getLastI.productivityScore -
              [samplePerfRow, samplePerfRow2].headI.productivityScore) /
              (([samplePerfRow, samplePerfRow2].length : ℚ) - 1) * ((i + 1 : ℕ) : ℚ))⟩) ∧
    ((forecastDepartmentWorkload (some [negRowA, negRowB])).length = 7 ∧
      ∀ i : Nat, i < 7 → (forecastDepartmentWorkload (some [negRowA, negRowB]))[i]? =
        some ⟨[negRowA, negRowB].getLastI.date + ((i + 1 : ℕ) : ℤ),
          jsRound ([negRowA, negRowB].getLastI.totalTasks +
            ([negRowA, negRowB].getLastI.totalTasks -
              [negRowA, negRowB].headI.totalTasks) /
              (([negRowA, negRowB].length : ℚ) - 1) * ((i + 1 : ℕ) : ℚ))⟩) ∧
    (∃ p ∈ forecastTaskCompletion (some [negRowA, negRowB]), p.predicted < 0)) :=
  ⟨⟨by decide, by decide, by decide⟩,
    forecast_shape_and_values [negRowA, negRowB] [negRowA, negRowB]
      [samplePerfRow, samplePerfRow2] (by decide) (by decide) (by decide)⟩

/-- A ratio of a part to a positive whole, scaled to a percentage, lies
in [0, 100]. -/
theorem rate_bound (c t : ℚ) (hc : 0 ≤ c) (hct : c ≤ t) (ht : 0 < t) :
    0 ≤ c / t * 100 ∧ c / t * 100 ≤ 100 := by
  constructor
  · positivity
  · have h1 : c / t ≤ 1 := (div_le_one ht).mpr hct
    nlinarith

/-- The per-row completion rate of `getPerformanceTrends` is bounded for
any snapshot whose completed count is between 0 and its total. -/
theorem perfTrendEntry_bound (m : TaskMetricsRow) (h0 : 0 ≤ m.completedTasks)
    (h1 : m.completedTasks ≤ m.totalTasks) :
    0 ≤ (perfTrendEntry m).completionRate ∧ (perfTrendEntry m).completionRate ≤ 100 := by
  simp only [perfTrendEntry]
  split_ifs with ht
  · exact rate_bound _ _ h0 h1 ht
  · norm_num

/-- C8: every completion-rate computation is total and bounded: the rate
`calculateTaskTrends` computes over a task set lies in [0, 100] and is 0
for an empty set; the per-snapshot rate of `getPerformanceTrends` lies in
[0, 100] for rows whose completed count is between 0 and the total
(which `calculateTaskMetrics`, the producer of those rows, guarantees)
and is defined as 0 — with no division — when `totalTasks = 0`. -/
theorem completionRate_total_and_bounded
    (tasks : List Task) (m : TaskMetricsRow) (ms : List TaskMetricsRow)
    (e : PerformanceTrendEntry) (now date : Int)
    (hm0 : 0 ≤ m.completedTasks) (hm1 : m.completedTasks ≤ m.totalTasks)
    (hms : ∀ x ∈ ms, 0 ≤ x.completedTasks ∧ x.completedTasks ≤ x.totalTasks)
    (he : e ∈ getPerformanceTrends ms) :
    (0 ≤ (calculateTaskTrends tasks).completionRate ∧
      (calculateTaskTrends tasks).completionRate ≤ 100) ∧
    (tasks = [] → (calculateTaskTrends tasks).completionRate = 0) ∧
    (0 ≤ (perfTrendEntry m).completionRate ∧ (perfTrendEntry m).completionRate ≤ 100) ∧
    (m.totalTasks = 0 → (perfTrendEntry m).completionRate = 0) ∧
    (0 ≤ e.completionRate ∧ e.completionRate ≤ 100) ∧
    (0 ≤ (calculateTaskMetrics tasks now date).completedTasks ∧
      (calculateTaskMetrics tasks now date).completedTasks ≤
        (calculateTaskMetrics tasks now date).totalTasks) := by
  refine ⟨?_, ?_, perfTrendEntry_bound m hm0 hm1, ?_, ?_, ?_⟩
  · simp only [calculateTaskTrends]
    split_ifs with hlen
    · refine rate_bound _ _ (by positivity) ?_ (by exact_mod_cast hlen)
      exact_mod_cast List.length_filter_le _ tasks
    · norm_num
  · rintro rfl
    simp [calculateTaskTrends]
  · intro h0
    simp [perfTrendEntry, h0]
  · obtain ⟨x, hx, rfl⟩ := List.mem_map.mp he
    exact perfTrendEntry_bound x (hms x hx).1 (hms x hx).2
  · constructor
    · simp only [calculateTaskMetrics]
      positivity
    · simp only [calculateTaskMetrics]
      exact_mod_cast List.length_filter_le _ tasks

/-- Witness for C8 with a concrete task list and snapshot series. -/
theorem completionRate_total_and_bounded_witness :
    (0 ≤ sampleMetricsRow.completedTasks ∧
      sampleMetricsRow.completedTasks ≤ sampleMetricsRow.totalTasks ∧
      (∀ x ∈ [sampleMetricsRow],
        0 ≤ x.completedTasks ∧ x.completedTasks ≤ x.totalTasks) ∧
      perfTrendEntry sampleMetricsRow ∈ getPerformanceTrends [sampleMetricsRow]) ∧
    ((0 ≤ (calculateTaskTrends [overdueTask]).completionRate ∧
      (calculateTaskTrends [overdueTask]).completionRate ≤ 100) ∧
    ([overdueTask] = ([] : List Task) →
      (calculateTaskTrends [overdueTask]).completionRate = 0) ∧
    (0 ≤ (perfTrendEntry sampleMetricsRow).completionRate ∧
      (perfTrendEntry sampleMetricsRow).completionRate ≤ 100) ∧
    (sampleMetricsRow.totalTasks = 0 →
      (perfTrendEntry sampleMetricsRow).completionRate = 0) ∧
    (0 ≤ (perfTrendEntry sampleMetricsRow).completionRate ∧
      (perfTrendEntry sampleMetricsRow).completionRate ≤ 100) ∧
    (0 ≤ (calculateTaskMetrics [overdueTask] 0 0).completedTasks ∧
      (calculateTaskMetrics [overdueTask] 0 0).completedTasks ≤
        (calculateTaskMetrics [overdueTask] 0 0).totalTasks)) :=
  ⟨⟨by norm_num [sampleMetricsRow], by norm_num [sampleMetricsRow],
    by norm_num [sampleMetricsRow], by simp [getPerformanceTrends]⟩,
    completionRate_total_and_bounded [overdueTask] sampleMetricsRow [sampleMetricsRow]
      (perfTrendEntry sampleMetricsRow) 0 0
      (by norm_num [sampleMetricsRow]) (by norm_num [sampleMetricsRow])
      (by norm_num [sampleMetricsRow]) (by simp [getPerformanceTrends])⟩

/-- Running the priority-distribution loop from numeric `high`/`medium`/
`low` slots and an `urgent` slot that is absent or already `NaN`: the
numeric slots accumulate exact counts, and the `urgent` slot stays as it
was unless an urgent task appears, which pins it to `NaN`. -/
theorem prioFold_eq (tasks : List Task) :
    ∀ (a b c : ℚ) (u : Option JsVal), (u = none ∨ u = some JsVal.nan) →
      tasks.foldl (fun d t => d.bump t.priority)
          (⟨.num a, .num b, .num c, u⟩ : PriorityDistribution) =
        (⟨.num (a + tasks.countP fun t => t.priority == .high),
          .num (b + tasks.countP fun t => t.priority == .medium),
          .num (c + tasks.countP fun t => t.priority == .low),
          if (tasks.countP fun t => t.priority == .urgent) = 0 then u
          else some JsVal.nan⟩ : PriorityDistribution) := by
  induction tasks with
  | nil => intro a b c u hu; simp
  | cons t ts ih =>
    intro a b c u hu
    cases hp : t.priority
    case low =>
      rw [List.foldl_cons,
        show (⟨JsVal.num a, JsVal.num b, JsVal.num c, u⟩ :
            PriorityDistribution).bump t.priority =
          ⟨JsVal.num a, JsVal.num b, JsVal.num (c + 1), u⟩ from by rw [hp]; rfl,
        ih a b (c + 1) u hu]
      simp [List.countP_cons, hp, PriorityDistribution.mk.injEq]
      ring
    case medium =>
      rw [List.foldl_cons,
        show (⟨JsVal.num a, JsVal.num b, JsVal.num c, u⟩ :
            PriorityDistribution).bump t.priority =
          ⟨JsVal.num a, JsVal.num (b + 1), JsVal.num c, u⟩ from by rw [hp]; rfl,
        ih a (b + 1) c u hu]
      simp [List.countP_cons, hp, PriorityDistribution.mk.injEq]
      ring
    case high =>
      rw [List.foldl_cons,
        show (⟨JsVal.num a, JsVal.num b, JsVal.num c, u⟩ :
            PriorityDistribution).bump t.priority =
          ⟨JsVal.num (a + 1), JsVal.num b, JsVal.num c, u⟩ from by rw [hp]; rfl,
        ih (a + 1) b c u hu]
      simp [List.countP_cons, hp, PriorityDistribution.mk.injEq]
      ring
    case urgent =>
      rw [List.foldl_cons,
        show (⟨JsVal.num a, JsVal.num b, JsVal.num c, u⟩ :
            PriorityDistribution).bump t.priority =
          ⟨JsVal.num a, JsVal.num b, JsVal.num c, some JsVal.nan⟩ from by
            rcases hu with rfl | rfl <;> (rw [hp]; rfl),
        ih a b c (some JsVal.nan) (Or.inr rfl)]
      simp [List.countP_cons, hp, PriorityDistribution.mk.injEq]

/-- Running the status-distribution loop from numeric slots: all four
slots accumulate exact counts (every status key is initialised). -/
theorem statusFold_eq (tasks : List Task) :
    ∀ (a b c d : ℚ),
      tasks.foldl (fun s t => s.bump t.status)
          (⟨.num a, .num b, .num c, .num d⟩ : StatusDistribution) =
        (⟨.num (a + tasks.countP fun t => t.status == .pending),
          .num (b + tasks.countP fun t => t.status == .in_progress),
          .num (c + tasks.countP fun t => t.status == .completed),
          .num (d + tasks.countP fun t => t.status == .cancelled)⟩ : StatusDistribution) := by
  induction tasks with
  | nil => intro a b c d; simp
  | cons t ts ih =>
    intro a b c d
    cases hs : t.status
    case pending =>
      rw [List.foldl_cons,
        show (⟨JsVal.num a, JsVal.num b, JsVal.num c, JsVal.num d⟩ :
            StatusDistribution).bump t.status =
          ⟨JsVal.num (a + 1), JsVal.num b, JsVal.num c, JsVal.num d⟩ from by rw [hs]; rfl,
        ih (a + 1) b c d]
      simp [List.countP_cons, hs, StatusDistribution.mk.injEq]
      ring
    case in_progress =>
      rw [List.foldl_cons,
        show (⟨JsVal.num a, JsVal.num b, JsVal.num c, JsVal.num d⟩ :
            StatusDistribution).bump t.status =
          ⟨JsVal.num a, JsVal.num (b + 1), JsVal.num c, JsVal.num d⟩ from by rw [hs]; rfl,
        ih a (b + 1) c d]
      simp [List.countP_cons, hs, StatusDistribution.mk.injEq]
      ring
    case completed =>
      rw [List.foldl_cons,
        show (⟨JsVal.num a, JsVal.num b, JsVal.num c, JsVal.num d⟩ :
            StatusDistribution).bump t.status =
          ⟨JsVal.num a, JsVal.num b, JsVal.num (c + 1), JsVal.num d⟩ from by rw [hs]; rfl,
        ih a b (c + 1) d]
      simp [List.countP_cons, hs, StatusDistribution.mk.injEq]
      ring
    case cancelled =>
      rw [List.foldl_cons,
        show (⟨JsVal.num a, JsVal.num b, JsVal.num c, JsVal.num d⟩ :
            StatusDistribution).bump t.status =
          ⟨JsVal.num a, JsVal.num b, JsVal.num c, JsVal.num (d + 1)⟩ from by rw [hs]; rfl,
        ih a b c (d + 1)]
      simp [List.countP_cons, hs, StatusDistribution.mk.injEq]
      ring

/-- The four priority counts partition the task list. -/
theorem countP_priority_partition (tasks : List Task) :
    (tasks.countP fun t => t.priority == .high) +
      (tasks.countP fun t => t.priority == .medium) +
      (tasks.countP fun t => t.priority == .low) +
      (tasks.countP fun t => t.priority == .urgent) = tasks.length := by
  induction tasks with
  | nil => rfl
  | cons t ts ih =>
    cases hp : t.priority <;> simp [List.countP_cons, hp] <;> omega

/-- The four status counts partition the task list. -/
theorem countP_status_partition (tasks : List Task) :
    (tasks.countP fun t => t.status == .pending) +
      (tasks.countP fun t => t.status == .in_progress) +
      (tasks.countP fun t => t.status == .completed) +
      (tasks.countP fun t => t.status == .cancelled) = tasks.length := by
  induction tasks with
  | nil => rfl
  | cons t ts ih =>
    cases hs : t.status <;> simp [List.countP_cons, hs] <;> omega

/-- C10: `calculateTaskTrends` counts only the distribution keys its
initializer creates.  The `high`/`medium`/`low` priority counters and all
four status counters are exactly the respective per-value counts — so
when every priority is in {high, medium, low} the three counters sum to
the task total and the `urgent` key is absent — while any task with
priority `urgent` increments a missing key, leaving the `urgent` bucket
`NaN` (non-numeric) and those tasks uncounted in the numeric
counters. -/
theorem priority_distribution_counts (tasks : List Task) :
    (calculateTaskTrends tasks).priorityDistribution.high =
      .num (tasks.countP fun t => t.priority == .high) ∧
    (calculateTaskTrends tasks).priorityDistribution.medium =
      .num (tasks.countP fun t => t.priority == .medium) ∧
    (calculateTaskTrends tasks).priorityDistribution.low =
      .num (tasks.countP fun t => t.priority == .low) ∧
    (calculateTaskTrends tasks).priorityDistribution.urgent =
      (if (tasks.countP fun t => t.priority == .urgent) = 0 then none
       else some JsVal.nan) ∧
    (tasks.countP fun t => t.priority == .high) +
      (tasks.countP fun t => t.priority == .medium) +
      (tasks.countP fun t => t.priority == .low) +
      (tasks.countP fun t => t.priority == .urgent) = tasks.length ∧
    (calculateTaskTrends tasks).statusDistribution.pending =
      .num (tasks.countP fun t => t.status == .pending) ∧
    (calculateTaskTrends tasks).statusDistribution.in_progress =
      .num (tasks.countP fun t => t.status == .in_progress) ∧
    (calculateTaskTrends tasks).statusDistribution.completed =
      .num (tasks.countP fun t => t.status == .completed) ∧
    (calculateTaskTrends tasks).statusDistribution.cancelled =
      .num (tasks.countP fun t => t.status == .cancelled) ∧
    (tasks.countP fun t => t.status == .pending) +
      (tasks.countP fun t => t.status == .in_progress) +
      (tasks.countP fun t => t.status == .completed) +
      (tasks.countP fun t => t.status == .cancelled) = tasks.length := by
  have hp := prioFold_eq tasks 0 0 0 none (Or.inl rfl)
  have hs := statusFold_eq tasks 0 0 0 0
  simp [calculateTaskTrends, hp, hs, countP_priority_partition tasks,
    countP_status_partition tasks]

/-- Witness for C9 on the singleton overdue-task list. -/
theorem productivityScore_formula_unclamped_witness :
    [overdueTask] ≠ [] ∧
    ((calculateUserPerformance [overdueTask] 0).productivityScore =
      ((([overdueTask].filter fun t => t.status == .completed).length : ℚ) /
        [overdueTask].length) * 100 -
      ((([overdueTask].filter fun t => t.status != .completed && t.dueDate < 0).length : ℚ) /
        [overdueTask].length) * 50 ∧
     (calculateUserPerformance [] 0).productivityScore = 0 ∧
     (calculateUserPerformance [overdueTask] 0).productivityScore < 0) :=
  ⟨by decide, productivityScore_formula_unclamped [overdueTask] 0 (by decide)⟩

end Capstone
